import Mathlib

/-!
# Browser Extension Manager (`src/main.js`)

A shallow embedding of the page script: the `state` object, the filter
manager, the renderer, the two delegated grid handlers and the theme helpers,
followed by the properties proved about them.

Modelling conventions.

* The DOM is represented by the parts the script reads or writes: the children
  of `.extensions-grid` (a list of cards), the theme toggle button and its
  icon, and the theme attributes of `document.body`.  An element that
  `querySelector` may fail to find is an `Option`.
* A card's content is built by the browser's HTML parser from the interpolated
  template.  The parser is a parameter, `parseHTML`; only for records whose
  fields are plain text (`plainRecord`) is the result fixed here, as the
  template's own structure.
* `localStorage` is a map from keys to optional strings; a call that throws is
  an explicit `Except` error, and `try`/`catch` is a `match` on that result.
* An event is represented by what the handler reads from it: the card that
  encloses `event.target`, if any.
-/

namespace BEM

/-! ## Data model -/

/-- An entry of `data.js`, as cloned into `state.extensions`. -/
structure ExtensionRecord where
  name : String
  description : String
  logo : String
  isActive : Bool
  deriving DecidableEq, Repr

/-- The `state` object (lines 10-13). -/
structure State where
  extensions : List ExtensionRecord
  theme : String
  deriving DecidableEq, Repr

/-- The checkbox of a card: its `checked` attribute and its live `checked`
property. -/
structure Checkbox where
  checkedAttr : Bool
  checked : Bool
  deriving DecidableEq, Repr

/-- What the HTML parser built inside an `<article>` from the string assigned
to `innerHTML`, as far as the script and the properties below read it: the
`src` and `alt` of the logo image, the text of the first
`.extension-card__title` and of the description paragraph, and the checkbox.
Each part is `none` when the parsed content has no such element. -/
structure CardContent where
  logoSrc : Option String
  logoAlt : Option String
  title : Option String
  description : Option String
  checkbox : Option Checkbox
  deriving DecidableEq, Repr

/-- The `<article class="extension-card">` built by `createExtensionCard`: its
parsed content and the presence of its own `data-active` attribute. -/
structure Card where
  content : CardContent
  dataActive : Bool
  deriving DecidableEq, Repr

/-- The `.light-dark-toggle` button: its `aria-pressed` attribute. -/
structure ThemeToggle where
  ariaPressed : Option String
  deriving DecidableEq, Repr

/-- The `.light-dark-toggle img` element: its `src` and `alt` attributes. -/
structure ThemeToggleIcon where
  src : Option String
  alt : Option String
  deriving DecidableEq, Repr

/-- The `elements` object (lines 19-27), restricted to the references that the
modelled functions use; `none` is a failed lookup. -/
structure Elements where
  grid : Option (List Card)
  themeToggle : Option ThemeToggle
  themeToggleIcon : Option ThemeToggleIcon
  deriving DecidableEq, Repr

/-- The parts of `document.body` written by the theme helpers. -/
structure Body where
  datasetTheme : Option String
  disableThemeTransitions : Bool
  deriving DecidableEq, Repr

/-- The key-value content of `localStorage`. -/
abbrev Storage := String → Option String

/-- The imported icon URLs (`iconMoon`, `iconSun`, lines 2-3). -/
structure Assets where
  iconMoon : String
  iconSun : String
  deriving DecidableEq, Repr

/-- Everything the script owns or touches: `state`, `filterManager.current`,
`elements`, `document.body` and `localStorage`. -/
structure World where
  state : State
  current : String
  elements : Elements
  body : Body
  localStorage : Storage

/-! ## Filter manager -/

/-- The method `filterManager.get(filter = this.current)` (lines 36-45); `none`
is an omitted argument. -/
def filterManager.get (filter : Option String) (w : World) : List ExtensionRecord :=
  let filter := filter.getD w.current
  if filter = "active" then
    w.state.extensions.filter (fun r => r.isActive)
  else if filter = "inactive" then
    w.state.extensions.filter (fun r => !r.isActive)
  else
    w.state.extensions

/-! ## Rendering utilities -/

/-- The template literal assigned to `article.innerHTML` (lines 133-152), with
its four interpolated fields and the interpolated `checked` attribute. -/
def cardTemplate (card : ExtensionRecord) : String :=
  "\n    <header class=\"extension-card__header flex\">"
  ++ "\n      <figure class=\"extension-card__figure\">"
  ++ "\n        <img src=\"" ++ card.logo ++ "\" alt=\"" ++ card.name ++ " logo\" />"
  ++ "\n      </figure>"
  ++ "\n      <div class=\"extension-card__content\">"
  ++ "\n        <h3 class=\"extension-card__title\">" ++ card.name ++ "</h3>"
  ++ "\n        <p class=\"extension-card__description\">" ++ card.description ++ "</p>"
  ++ "\n      </div>"
  ++ "\n    </header>"
  ++ "\n    <footer class=\"extension-card__footer flex flex--between-center\">"
  ++ "\n      <button class=\"button button--remove\" type=\"button\">Remove</button>"
  ++ "\n      <label class=\"toggle\" aria-label=\"Toggle extension\">"
  ++ "\n        <input class=\"toggle__input\" type=\"checkbox\" "
  ++ (if card.isActive then "checked" else "") ++ ">"
  ++ "\n        <span class=\"toggle__track\" aria-hidden=\"true\"></span>"
  ++ "\n      </label>"
  ++ "\n    </footer>"
  ++ "\n  "

/-- A string that the HTML parser reads back unchanged, both as element text
and as a double-quoted attribute value: it holds no NUL (0) or carriage
return (13), which the parser rewrites, and no double quote (34), ampersand
(38), less-than (60) or greater-than (62), which can open or close markup, a
character reference or an attribute value. -/
def plainText (s : String) : Bool :=
  s.data.all (fun c => !([0, 13, 34, 38, 60, 62].contains c.toNat))

/-- A record whose three interpolated fields are plain text. -/
def plainRecord (card : ExtensionRecord) : Bool :=
  plainText card.name && plainText card.description && plainText card.logo

/-- The content that the template itself describes, with the fields as text:
the image with `src` and `alt`, the title, the description, and a checkbox that
carries the `checked` attribute exactly when the record is active. -/
def templateContent (card : ExtensionRecord) : CardContent :=
  { logoSrc := some card.logo
    logoAlt := some (card.name ++ " logo")
    title := some card.name
    description := some card.description
    checkbox := some { checkedAttr := card.isActive, checked := card.isActive } }

/-- The function `createExtensionCard(card)` (lines 129-159).  The content of
the article is what the browser builds from `cardTemplate card`.  For a plain
record the HTML parsing rules leave no choice: every interpolated character is
literal text, and the content is `templateContent card`.  For any other record
the content is whatever the parser `parseHTML` yields for the string.  The
`data-active` attribute is set on the article itself (lines 154-156). -/
def createExtensionCard (parseHTML : String → CardContent) (card : ExtensionRecord) : Card :=
  let innerHTML := cardTemplate card
  { content := if plainRecord card then templateContent card else parseHTML innerHTML
    dataActive := card.isActive }

/-- The function `renderExtensions(extensionsList, container)` (lines 120-127):
the result is the new list of children of the container. -/
def renderExtensions (parseHTML : String → CardContent)
    (extensionsList : List ExtensionRecord) (container : Option (List Card)) :
    Option (List Card) :=
  match container with
  | none => none
  | some _ =>
    some (extensionsList.foldl
      (fun children card => children ++ [createExtensionCard parseHTML card]) [])

/-- The method `filterManager.apply(filter = this.current)` (lines 47-52). -/
def filterManager.apply (parseHTML : String → CardContent) (filter : Option String)
    (w : World) : World :=
  match w.elements.grid with
  | none => w
  | some _ =>
    let filter := filter.getD w.current
    let w1 := { w with current := filter }
    { w1 with
      elements :=
        { w1.elements with
          grid :=
            renderExtensions parseHTML (filterManager.get (some filter) w1)
              w1.elements.grid } }

/-! ## Grid actions -/

/-- The click listener `removeExtensionCard(event)` (lines 165-171).  `target`
is the index of the card whose remove button encloses `event.target`, `none`
when the click landed anywhere else.  Without a grid element the listener is
never bound (`bindGridInteractions`, lines 100-105). -/
def removeExtensionCard (target : Option Nat) (w : World) : World :=
  match w.elements.grid with
  | none => w
  | some children =>
    match target with
    | none => w
    | some i =>
      match children[i]? with
      | none => w
      | some _ => { w with elements := { w.elements with grid := some (children.eraseIdx i) } }

/-- The `state.extensions.find(item => item.name === title)` of lines 184-186,
as the position of the record found. -/
def findExtension (title : String) : List ExtensionRecord → Option Nat
  | [] => none
  | item :: rest =>
    if item.name = title then some 0 else (findExtension title rest).map (· + 1)

/-- The change listener `updateExtensionCard(event)` (lines 173-201).  `target`
is the index of the card whose checkbox is `event.target`, `none` when there is
no such card; `input.checked` is read from that checkbox.  Without a grid
element the listener is never bound (`bindGridInteractions`, lines 100-105). -/
def updateExtensionCard (parseHTML : String → CardContent) (target : Option Nat)
    (w : World) : World :=
  match w.elements.grid with
  | none => w
  | some children =>
    match target with
    | none => w
    | some i =>
      match children[i]? with
      | none => w
      | some extensionCard =>
        match extensionCard.content.checkbox with
        | none => w
        | some input =>
          let synced : Card :=
            { content :=
                { extensionCard.content with
                  checkbox := some { input with checkedAttr := input.checked } }
              dataActive := input.checked }
          let w1 :=
            { w with elements := { w.elements with grid := some (children.set i synced) } }
          match synced.content.title with
          | none => w1
          | some cardTitle =>
            match findExtension cardTitle w1.state.extensions with
            | none => w1
            | some j =>
              match w1.state.extensions[j]? with
              | none => w1
              | some extension =>
                let w2 :=
                  { w1 with
                    state :=
                      { w1.state with
                        extensions :=
                          w1.state.extensions.set j
                            { extension with isActive := input.checked } } }
                filterManager.apply parseHTML none w2

/-! ## Theme helpers -/

/-- The call `localStorage.getItem(key)`; `throws` says whether storage access
fails. -/
def localStorage_getItem (throws : Bool) (store : Storage) (key : String) :
    Except String (Option String) :=
  if throws then .error "SecurityError" else .ok (store key)

/-- The call `localStorage.setItem(key, value)`; `throws` says whether the
write fails. -/
def localStorage_setItem (throws : Bool) (store : Storage) (key value : String) :
    Except String Storage :=
  if throws then .error "QuotaExceededError"
  else .ok (fun k => if k = key then some value else store k)

/-- The function `temporarilyDisableThemeTransitions()` (lines 246-253): the class is added
at once; its removal two animation frames later is outside the handlers
modelled here. -/
def temporarilyDisableThemeTransitions (w : World) : World :=
  { w with body := { w.body with disableThemeTransitions := true } }

/-- The function `applyTheme(theme)` (lines 207-229); `setThrows` says whether
the storage write of this call fails. -/
def applyTheme (assets : Assets) (theme : String) (setThrows : Bool) (w : World) :
    Except String World :=
  let w1 := { w with state := { w.state with theme := theme } }
  let w2 := temporarilyDisableThemeTransitions w1
  let w3 := { w2 with body := { w2.body with datasetTheme := some theme } }
  let iconSrc := if theme = "dark" then assets.iconSun else assets.iconMoon
  let iconAlt := if theme = "dark" then "Switch to light theme" else "Switch to dark theme"
  let w4 :=
    { w3 with
      elements :=
        { w3.elements with
          themeToggleIcon :=
            w3.elements.themeToggleIcon.map
              (fun _ => { src := some iconSrc, alt := some iconAlt })
          themeToggle :=
            w3.elements.themeToggle.map
              (fun _ => { ariaPressed := some (if theme = "dark" then "true" else "false") }) } }
  match localStorage_setItem setThrows w4.localStorage "bem-theme" theme with
  | .ok store => .ok { w4 with localStorage := store }
  | .error _ => .ok w4

/-- The function `getInitialTheme()` (lines 231-244); `getThrows` says whether
the storage read fails, `prefersDark` is the result of the
`(prefers-color-scheme: dark)` media query. -/
def getInitialTheme (getThrows : Bool) (store : Storage) (prefersDark : Bool) :
    Except String String :=
  let fromPreference : String := if prefersDark then "dark" else "light"
  match localStorage_getItem getThrows store "bem-theme" with
  | .ok (some stored) =>
    if stored = "dark" ∨ stored = "light" then .ok stored else .ok fromPreference
  | .ok none => .ok fromPreference
  | .error _ => .ok fromPreference

/-! ## Event binding and start-up -/

/-- The click listener of `bindThemeToggle` (lines 107-114). -/
def themeToggleClick (assets : Assets) (setThrows : Bool) (w : World) :
    Except String World :=
  match w.elements.themeToggle with
  | none => .ok w
  | some _ =>
    let nextTheme := if w.state.theme = "dark" then "light" else "dark"
    applyTheme assets nextTheme setThrows w

/-- The three filter buttons of `bindFilterActions` (lines 86-98). -/
inductive FilterButton where
  | filterAll
  | filterActive
  | filterInactive
  deriving DecidableEq, Repr

/-- The key each filter button passes to `filterManager.apply`. -/
def FilterButton.key : FilterButton → String
  | .filterAll => "all"
  | .filterActive => "active"
  | .filterInactive => "inactive"

/-- A user ticking or unticking the checkbox of card `i`: the browser flips the
`checked` property of the checkbox, then dispatches `change` to the grid
listener.  A card without a checkbox offers nothing to tick. -/
def checkboxChange (parseHTML : String → CardContent) (i : Nat) (w : World) : World :=
  match w.elements.grid with
  | none => w
  | some children =>
    match children[i]? with
    | none => w
    | some card =>
      match card.content.checkbox with
      | none => w
      | some input =>
        let flipped : Card :=
          { card with
            content :=
              { card.content with checkbox := some { input with checked := !input.checked } } }
        updateExtensionCard parseHTML (some i)
          { w with elements := { w.elements with grid := some (children.set i flipped) } }

/-- The user actions on the extension list. -/
inductive Action where
  | filterClick (button : FilterButton)
  | checkboxChange (i : Nat)
  | removeClick (i : Nat)
  deriving DecidableEq, Repr

/-- The listener that an action reaches. -/
def step (parseHTML : String → CardContent) (w : World) : Action → World
  | .filterClick button => filterManager.apply parseHTML (some button.key) w
  | .checkboxChange i => checkboxChange parseHTML i w
  | .removeClick i => removeExtensionCard (some i) w

/-- A sequence of user actions, in order. -/
def run (parseHTML : String → CardContent) (w : World) (actions : List Action) : World :=
  actions.foldl (step parseHTML) w

/-- Module start-up (lines 10-13 and 59-65): `state` is built from the seed
data and `getInitialTheme()`, `filterManager.current` is `"all"`, then
`applyTheme(state.theme)` and `filterManager.apply()` run on the page as
loaded. -/
def init (parseHTML : String → CardContent) (assets : Assets)
    (extensionsData : List ExtensionRecord) (elements : Elements) (body : Body)
    (store : Storage) (getThrows setThrows prefersDark : Bool) : Except String World :=
  match getInitialTheme getThrows store prefersDark with
  | .error e => .error e
  | .ok theme =>
    let w : World :=
      { state := { extensions := extensionsData, theme := theme }
        current := "all"
        elements := elements
        body := body
        localStorage := store }
    match applyTheme assets w.state.theme setThrows w with
    | .error e => .error e
    | .ok w1 => .ok (filterManager.apply parseHTML none w1)

/-- A sequence of theme-toggle clicks; each click carries whether its storage
write fails. -/
def themeClicks (assets : Assets) : List Bool → World → Except String World
  | [], w => .ok w
  | setThrows :: rest, w =>
    match themeToggleClick assets setThrows w with
    | .error e => .error e
    | .ok w1 => themeClicks assets rest w1

/-! ## Reference definitions and sample data -/

/-- The predicate that the specification attaches to a filter key: `"active"`
keeps the records whose `isActive` is true, `"inactive"` those whose `isActive`
is false, and `"all"` or any other key keeps every record. -/
def keeps (k : String) (r : ExtensionRecord) : Bool :=
  if k = "active" then r.isActive
  else if k = "inactive" then !r.isActive
  else true

/-- The reference filter of the specification: walk the list once, keeping in
place each record that the key's predicate accepts. -/
def referenceFilter (k : String) : List ExtensionRecord → List ExtensionRecord
  | [] => []
  | r :: rs => if keeps k r then r :: referenceFilter k rs else referenceFilter k rs

/-- The seed list of the specification's example: `A` active, `B` inactive. -/
def seedAB : List ExtensionRecord :=
  [ { name := "A", description := "first", logo := "a.svg", isActive := true },
    { name := "B", description := "second", logo := "b.svg", isActive := false } ]

/-- Two active records that share the name `X`. -/
def seedXX : List ExtensionRecord :=
  [ { name := "X", description := "one", logo := "x1.svg", isActive := true },
    { name := "X", description := "two", logo := "x2.svg", isActive := true } ]

/-- A record whose name holds a character reference. -/
def entityRecord : ExtensionRecord :=
  { name := "Q&amp;A", description := "d", logo := "l.svg", isActive := true }

/-- A record whose description opens an HTML comment. -/
def commentRecord : ExtensionRecord :=
  { name := "C", description := "<!--", logo := "c.svg", isActive := true }

/-- A parser that follows the HTML parsing rules on the templates of the two
records above.  In the template of `entityRecord` the reference `&amp;` is
decoded, so the title text is `Q&A` and the image `alt` is `Q&A logo`.  In the
template of `commentRecord` the comment opened in the description is never
closed and runs to the end of the string, so the footer with its checkbox is
not built.  No other string is looked at by the properties below. -/
def sampleBrowser (html : String) : CardContent :=
  if html = cardTemplate entityRecord then
    { logoSrc := some "l.svg", logoAlt := some "Q&A logo", title := some "Q&A"
      description := some "d", checkbox := some { checkedAttr := true, checked := true } }
  else if html = cardTemplate commentRecord then
    { logoSrc := some "c.svg", logoAlt := some "C logo", title := some "C"
      description := some "", checkbox := none }
  else
    { logoSrc := none, logoAlt := none, title := none, description := none, checkbox := none }

/-- Sample icon URLs. -/
def sampleAssets : Assets := { iconMoon := "icon-moon.svg", iconSun := "icon-sun.svg" }

/-- A page on which every looked-up element exists and the grid is empty. -/
def samplePage : Elements :=
  { grid := some []
    themeToggle := some { ariaPressed := none }
    themeToggleIcon := some { src := none, alt := none } }

/-- The body before the script runs. -/
def sampleBody : Body := { datasetTheme := none, disableThemeTransitions := false }

/-- A `localStorage` with nothing in it. -/
def emptyStorage : Storage := fun _ => none

/-- A `localStorage` holding `value` under `"bem-theme"`. -/
def themeStorage (value : String) : Storage :=
  fun k => if k = "bem-theme" then some value else none

/-- A world over the given records, filter key and grid children. -/
def sampleWorld (extensions : List ExtensionRecord) (current : String)
    (children : List Card) : World :=
  { state := { extensions := extensions, theme := "light" }
    current := current
    elements := { samplePage with grid := some children }
    body := sampleBody
    localStorage := emptyStorage }

/-- The invariant of the grid under all user actions: the grid exists, every
record has plain-text fields, and every card in the grid has a checkbox and a
title that is the name of a record of `state.extensions`. -/
def CardsNameRecords (w : World) : Prop :=
  (∀ r ∈ w.state.extensions, plainRecord r = true)
  ∧ ∃ children, w.elements.grid = some children
    ∧ ∀ c ∈ children, (∃ input, c.content.checkbox = some input)
        ∧ ∃ t, c.content.title = some t ∧ ∃ r ∈ w.state.extensions, r.name = t

/-! ## Auxiliary lemmas -/

set_option maxRecDepth 100000

theorem foldl_append_card (parseHTML : String → CardContent) (l : List ExtensionRecord)
    (acc : List Card) :
    l.foldl (fun children card => children ++ [createExtensionCard parseHTML card]) acc
      = acc ++ l.map (createExtensionCard parseHTML) := by
  induction l generalizing acc with
  | nil => simp
  | cons r rs ih => simp [List.foldl_cons, ih]

theorem renderExtensions_some (parseHTML : String → CardContent)
    (l : List ExtensionRecord) (prior : List Card) :
    renderExtensions parseHTML l (some prior)
      = some (l.map (createExtensionCard parseHTML)) := by
  simp [renderExtensions, foldl_append_card]

/-- The card built for a plain record is the card that the template
describes. -/
theorem createExtensionCard_plain (parseHTML : String → CardContent) (r : ExtensionRecord)
    (h : plainRecord r = true) :
    createExtensionCard parseHTML r
      = { content := templateContent r, dataActive := r.isActive } := by
  simp [createExtensionCard, h]

theorem referenceFilter_eq_filter (k : String) (l : List ExtensionRecord) :
    referenceFilter k l = l.filter (keeps k) := by
  induction l with
  | nil => rfl
  | cons r rs ih => simp [referenceFilter, List.filter_cons, ih]

theorem get_eq_filter (k : String) (w : World) :
    filterManager.get (some k) w = w.state.extensions.filter (keeps k) := by
  unfold filterManager.get
  by_cases h1 : k = "active"
  · subst h1
    have hk : keeps "active" = fun r => r.isActive := by funext r; simp [keeps]
    simp [hk]
  · by_cases h2 : k = "inactive"
    · subst h2
      have hk : keeps "inactive" = fun r => !r.isActive := by funext r; simp [keeps]
      simp [hk]
    · have hk : keeps k = fun _ => true := by funext r; simp [keeps, h1, h2]
      simp [h1, h2, hk]

theorem get_none (w : World) :
    filterManager.get none w = filterManager.get (some w.current) w := by
  simp [filterManager.get]

/-! ## Filter manager: `get` -/

/-- C1: `filterManager.get(k)` is the reference filter of `state.extensions`:
the records with `isActive` true for `"active"`, those with `isActive` false
for `"inactive"`, the whole list for `"all"` and for any other key; the result
is a sublist of `state.extensions` (same relative order) in which every kept
record occurs as often as in `state.extensions` and every other record not at
all. -/
theorem filterManager_get_reference (w : World) (k : String) :
    filterManager.get (some k) w = referenceFilter k w.state.extensions
    ∧ (filterManager.get (some k) w).Sublist w.state.extensions
    ∧ (∀ r, (filterManager.get (some k) w).count r
        = if keeps k r then w.state.extensions.count r else 0)
    ∧ (∀ r, r ∈ filterManager.get (some "active") w
        ↔ r ∈ w.state.extensions ∧ r.isActive = true)
    ∧ (∀ r, r ∈ filterManager.get (some "inactive") w
        ↔ r ∈ w.state.extensions ∧ r.isActive = false)
    ∧ filterManager.get (some "all") w = w.state.extensions
    ∧ (k ≠ "active" → k ≠ "inactive" → filterManager.get (some k) w = w.state.extensions)
    ∧ filterManager.get none { w with current := k } = filterManager.get (some k) w := by
  refine ⟨?_, ?_, ?_, ?_, ?_, ?_, ?_, ?_⟩
  · rw [get_eq_filter, referenceFilter_eq_filter]
  · rw [get_eq_filter]
    exact List.filter_sublist _
  · intro r
    rw [get_eq_filter]
    by_cases hr : keeps k r = true
    · simp [hr, List.count_filter]
    · have hnot : r ∉ w.state.extensions.filter (keeps k) := by
        intro hmem
        exact hr (List.mem_filter.mp hmem).2
      simp [hr, List.count_eq_zero.mpr hnot]
  · intro r
    simp [get_eq_filter, keeps, List.mem_filter]
  · intro r
    simp [get_eq_filter, keeps, List.mem_filter]
  · simp [filterManager.get]
  · intro h1 h2
    simp [filterManager.get, h1, h2]
  · simp [filterManager.get]

/-- Witness for C1 on the seed list `[A active, B inactive]`: the key
`"inactive"` selects exactly `B`, and an unknown key selects both records. -/
theorem filterManager_get_reference_witness :
    filterManager.get (some "inactive") (sampleWorld seedAB "all" [])
        = referenceFilter "inactive" seedAB
    ∧ filterManager.get (some "newest") (sampleWorld seedAB "all" []) = seedAB :=
  ⟨(filterManager_get_reference (sampleWorld seedAB "all" []) "inactive").1,
   (filterManager_get_reference (sampleWorld seedAB "all" []) "newest").2.2.2.2.2.2.1
     (by decide) (by decide)⟩

/-! ## Renderer -/

/-- C9, amended: after `renderExtensions(records, container)` the container
holds exactly `createExtensionCard(r)` for each record, one per record and in
input order, whatever it held before; rendering again over the result changes
nothing; each card's `data-active` marker is present exactly when the record's
`isActive` is true; and for a record whose name, description and logo are plain
text the card's checkbox is checked exactly when `isActive` is true. -/
theorem renderExtensions_children (parseHTML : String → CardContent)
    (records : List ExtensionRecord) (prior : List Card) :
    renderExtensions parseHTML records (some prior)
        = some (records.map (createExtensionCard parseHTML))
    ∧ renderExtensions parseHTML records (renderExtensions parseHTML records (some prior))
        = renderExtensions parseHTML records (some prior)
    ∧ (∀ children, renderExtensions parseHTML records (some prior) = some children →
        children.length = records.length
        ∧ ∀ (i : Nat) (r : ExtensionRecord), records[i]? = some r →
            children[i]? = some (createExtensionCard parseHTML r))
    ∧ (∀ r, (createExtensionCard parseHTML r).dataActive = true ↔ r.isActive = true)
    ∧ (∀ r, plainRecord r = true →
        ∃ input, (createExtensionCard parseHTML r).content.checkbox = some input
          ∧ (input.checked = true ↔ r.isActive = true)
          ∧ (input.checkedAttr = true ↔ r.isActive = true)) := by
  refine ⟨renderExtensions_some parseHTML records prior, ?_, ?_, ?_, ?_⟩
  · simp [renderExtensions_some]
  · intro children h
    rw [renderExtensions_some] at h
    cases h
    refine ⟨by simp, ?_⟩
    intro i r hr
    simp [List.getElem?_map, hr]
  · intro r
    simp [createExtensionCard]
  · intro r hr
    rw [createExtensionCard_plain parseHTML r hr]
    exact ⟨_, rfl, Iff.rfl, Iff.rfl⟩

/-- Witness for C9: rendering the seed list over a container that already
holds a card leaves exactly the two cards of the seed list, the first with a
checked checkbox and the second with an unchecked one. -/
theorem renderExtensions_children_witness :
    renderExtensions sampleBrowser seedAB
        (some [createExtensionCard sampleBrowser ⟨"Old", "", "", true⟩])
      = some [createExtensionCard sampleBrowser ⟨"A", "first", "a.svg", true⟩,
              createExtensionCard sampleBrowser ⟨"B", "second", "b.svg", false⟩]
    ∧ (∃ input,
        (createExtensionCard sampleBrowser ⟨"A", "first", "a.svg", true⟩).content.checkbox
          = some input ∧ input.checked = true)
    ∧ (∃ input,
        (createExtensionCard sampleBrowser ⟨"B", "second", "b.svg", false⟩).content.checkbox
          = some input ∧ input.checked = false) := by
  have h := renderExtensions_children sampleBrowser seedAB
    [createExtensionCard sampleBrowser ⟨"Old", "", "", true⟩]
  obtain ⟨a, ha, hca, _⟩ := h.2.2.2.2 ⟨"A", "first", "a.svg", true⟩ (by decide)
  obtain ⟨b, hb, hcb, _⟩ := h.2.2.2.2 ⟨"B", "second", "b.svg", false⟩ (by decide)
  refine ⟨h.1, ⟨a, ha, hca.mpr rfl⟩, ⟨b, hb, ?_⟩⟩
  cases hbc : b.checked with
  | false => rfl
  | true => exact absurd (hcb.mp hbc) (by decide)

/-- Counterexample to C9 as stated: the record `commentRecord` is active, but
its description opens a comment that swallows the rest of the template, so the
card built for it has no checkbox at all, hence no checked one; its
`data-active` marker is present all the same. -/
theorem createExtensionCard_comment_swallows_checkbox :
    commentRecord.isActive = true
    ∧ (createExtensionCard sampleBrowser commentRecord).content.checkbox = none
    ∧ (¬ ∃ input, (createExtensionCard sampleBrowser commentRecord).content.checkbox
          = some input ∧ input.checked = true)
    ∧ (createExtensionCard sampleBrowser commentRecord).dataActive = true := by
  have hnone : (createExtensionCard sampleBrowser commentRecord).content.checkbox = none := by
    decide
  refine ⟨rfl, hnone, ?_, rfl⟩
  rintro ⟨input, h, _⟩
  rw [hnone] at h
  cases h

/-! ## Grid actions: remove -/

/-- C5: a remove click on card `i` of the grid deletes exactly that card, the
cards before and after it staying in order, and changes nothing else:
`state.extensions` and `state.theme`, `filterManager.current`, the body, the
theme toggle and the storage are as before. -/
theorem removeExtensionCard_frame (w : World) (children : List Card) (i : Nat)
    (hgrid : w.elements.grid = some children) (hi : i < children.length) :
    (removeExtensionCard (some i) w).elements.grid
        = some (children.take i ++ children.drop (i + 1))
    ∧ (removeExtensionCard (some i) w).state = w.state
    ∧ (removeExtensionCard (some i) w).state.extensions.length = w.state.extensions.length
    ∧ (removeExtensionCard (some i) w).current = w.current
    ∧ (removeExtensionCard (some i) w).body = w.body
    ∧ (removeExtensionCard (some i) w).localStorage = w.localStorage
    ∧ (removeExtensionCard (some i) w).elements.themeToggle = w.elements.themeToggle
    ∧ (removeExtensionCard (some i) w).elements.themeToggleIcon
        = w.elements.themeToggleIcon := by
  have hget : children[i]? = some children[i] := List.getElem?_eq_getElem hi
  simp [removeExtensionCard, hgrid, hget, List.eraseIdx_eq_take_drop_succ]

/-- Witness for C5: removing the first of the two seed cards leaves the card of
`B` in the grid and both records in `state.extensions`. -/
theorem removeExtensionCard_frame_witness :
    (removeExtensionCard (some 0)
        (sampleWorld seedAB "all" (seedAB.map (createExtensionCard sampleBrowser)))).elements.grid
      = some [createExtensionCard sampleBrowser ⟨"B", "second", "b.svg", false⟩]
    ∧ (removeExtensionCard (some 0)
        (sampleWorld seedAB "all" (seedAB.map (createExtensionCard sampleBrowser)))).state.extensions
      = seedAB :=
  have h := removeExtensionCard_frame
    (sampleWorld seedAB "all" (seedAB.map (createExtensionCard sampleBrowser)))
    (seedAB.map (createExtensionCard sampleBrowser)) 0 rfl (by decide)
  ⟨h.1, by rw [h.2.1]; rfl⟩

/-! ## Theme helpers -/

/-- C6: `getInitialTheme` returns the stored value when the read of
`"bem-theme"` succeeds and yields exactly `"light"` or `"dark"`, whatever the OS
preference; when the read throws, when nothing is stored, or when any other
string is stored, it returns `"dark"` if the OS prefers dark and `"light"`
otherwise. -/
theorem getInitialTheme_resolution (getThrows : Bool) (store : Storage) (prefersDark : Bool) :
    (getThrows = false → store "bem-theme" = some "light" →
        getInitialTheme getThrows store prefersDark = .ok "light")
    ∧ (getThrows = false → store "bem-theme" = some "dark" →
        getInitialTheme getThrows store prefersDark = .ok "dark")
    ∧ (getThrows = true ∨ store "bem-theme" = none
          ∨ (∃ v, store "bem-theme" = some v ∧ v ≠ "light" ∧ v ≠ "dark") →
        getInitialTheme getThrows store prefersDark
          = .ok (if prefersDark then "dark" else "light")) := by
  refine ⟨?_, ?_, ?_⟩
  · intro hg hs
    simp [getInitialTheme, localStorage_getItem, hg, hs]
  · intro hg hs
    simp [getInitialTheme, localStorage_getItem, hg, hs]
  · rintro (hg | hs | ⟨v, hs, hl, hd⟩)
    · simp [getInitialTheme, localStorage_getItem, hg]
    · cases getThrows <;> simp [getInitialTheme, localStorage_getItem, hs]
    · cases getThrows <;> simp [getInitialTheme, localStorage_getItem, hs, hl, hd]

/-- Witness for C6: nothing stored and a dark OS preference give `"dark"`;
a stored `"light"` gives `"light"` under a dark OS preference; a stored value
that is neither gives the OS preference; so does a read that throws. -/
theorem getInitialTheme_resolution_witness :
    getInitialTheme false emptyStorage true = .ok "dark"
    ∧ getInitialTheme false (themeStorage "light") true = .ok "light"
    ∧ getInitialTheme false (themeStorage "blue") false = .ok "light"
    ∧ getInitialTheme true (themeStorage "light") true = .ok "dark" :=
  ⟨(getInitialTheme_resolution false emptyStorage true).2.2 (Or.inr (Or.inl rfl)),
   (getInitialTheme_resolution false (themeStorage "light") true).1 rfl rfl,
   (getInitialTheme_resolution false (themeStorage "blue") false).2.2
     (Or.inr (Or.inr ⟨"blue", rfl, by decide, by decide⟩)),
   (getInitialTheme_resolution true (themeStorage "light") true).2.2 (Or.inl rfl)⟩

/-- What `applyTheme` returns: always a world, with the theme recorded, the
toggle kept in place, the list and filter untouched, and the storage written
when the write does not throw. -/
theorem applyTheme_ok (assets : Assets) (t : String) (setThrows : Bool) (w : World) :
    ∃ w', applyTheme assets t setThrows w = .ok w'
      ∧ w'.state.theme = t
      ∧ w'.state.extensions = w.state.extensions
      ∧ w'.current = w.current
      ∧ w'.elements.grid = w.elements.grid
      ∧ w'.elements.themeToggle.isSome = w.elements.themeToggle.isSome
      ∧ (setThrows = true → w'.localStorage = w.localStorage)
      ∧ (setThrows = false → w'.localStorage "bem-theme" = some t) := by
  cases setThrows <;>
    simp [applyTheme, localStorage_setItem, temporarilyDisableThemeTransitions]

/-- C8: `applyTheme(t)` always completes: whether or not the write to
`"bem-theme"` throws, it returns normally with `state.theme = t`, the body's
theme attribute set to `t`, and the icon and `aria-pressed` of the toggle (when
these elements exist) set for `t`.  When the write throws the storage is left
as it was; when it succeeds the value stored under `"bem-theme"` is `t` and
every other key is untouched. -/
theorem applyTheme_storage_failure (assets : Assets) (t : String) (setThrows : Bool)
    (w : World) :
    ∃ w', applyTheme assets t setThrows w = .ok w'
      ∧ w'.state.theme = t
      ∧ w'.body.datasetTheme = some t
      ∧ (∀ icon, w.elements.themeToggleIcon = some icon →
          w'.elements.themeToggleIcon
            = some { src := some (if t = "dark" then assets.iconSun else assets.iconMoon)
                     alt := some (if t = "dark" then "Switch to light theme"
                                  else "Switch to dark theme") })
      ∧ (∀ button, w.elements.themeToggle = some button →
          w'.elements.themeToggle
            = some { ariaPressed := some (if t = "dark" then "true" else "false") })
      ∧ (setThrows = true → w'.localStorage = w.localStorage)
      ∧ (setThrows = false →
          w'.localStorage "bem-theme" = some t
          ∧ ∀ k, k ≠ "bem-theme" → w'.localStorage k = w.localStorage k) := by
  cases setThrows
  · refine ⟨_, by simp [applyTheme, localStorage_setItem]; rfl, rfl, rfl, ?_, ?_, ?_, ?_⟩
    · intro icon h
      simp [temporarilyDisableThemeTransitions, h]
    · intro button h
      simp [temporarilyDisableThemeTransitions, h]
    · intro h
      cases h
    · intro _
      refine ⟨by simp, ?_⟩
      intro k hk
      simp [hk, temporarilyDisableThemeTransitions]
  · refine ⟨_, by simp [applyTheme, localStorage_setItem]; rfl, rfl, rfl, ?_, ?_, ?_, ?_⟩
    · intro icon h
      simp [temporarilyDisableThemeTransitions, h]
    · intro button h
      simp [temporarilyDisableThemeTransitions, h]
    · intro _
      rfl
    · intro h
      cases h

/-- Witness for C8: with a failing write, `applyTheme("dark")` on a page whose
storage holds `"light"` returns a world in the dark theme whose storage still
holds `"light"`. -/
theorem applyTheme_storage_failure_witness :
    ∃ w', applyTheme sampleAssets "dark" true
            { sampleWorld seedAB "all" [] with localStorage := themeStorage "light" } = .ok w'
      ∧ w'.state.theme = "dark"
      ∧ w'.localStorage "bem-theme" = some "light" := by
  obtain ⟨w', hok, htheme, _, _, _, hkeep, _⟩ :=
    applyTheme_storage_failure sampleAssets "dark" true
      { sampleWorld seedAB "all" [] with localStorage := themeStorage "light" }
  exact ⟨w', hok, htheme, by rw [hkeep rfl]; rfl⟩


/-- What `filterManager.apply` leaves alone, and what it renders. -/
theorem apply_frame (parseHTML : String → CardContent) (filter : Option String)
    (w : World) :
    (filterManager.apply parseHTML filter w).state = w.state
    ∧ (filterManager.apply parseHTML filter w).body = w.body
    ∧ (filterManager.apply parseHTML filter w).localStorage = w.localStorage
    ∧ (filterManager.apply parseHTML filter w).elements.themeToggle = w.elements.themeToggle
    ∧ (filterManager.apply parseHTML filter w).elements.themeToggleIcon = w.elements.themeToggleIcon := by
  unfold filterManager.apply
  cases h : w.elements.grid <;> simp

theorem apply_grid (parseHTML : String → CardContent) (filter : Option String)
    (w : World) (prior : List Card)
    (hgrid : w.elements.grid = some prior) :
    (filterManager.apply parseHTML filter w).current = filter.getD w.current
    ∧ (filterManager.apply parseHTML filter w).elements.grid
        = some ((filterManager.get none (filterManager.apply parseHTML filter w)).map
            (createExtensionCard parseHTML)) := by
  simp [filterManager.apply, hgrid, renderExtensions_some, filterManager.get]

/-- Start-up always succeeds and yields a world whose theme is `"light"` or
`"dark"`, whose list is the seed data and whose filter is `"all"`. -/
theorem init_ok (parseHTML : String → CardContent) (assets : Assets)
    (extensionsData : List ExtensionRecord) (elements : Elements) (body : Body)
    (store : Storage) (getThrows setThrows prefersDark : Bool) :
    ∃ w0,
      init parseHTML assets extensionsData elements body store getThrows setThrows
          prefersDark = .ok w0
      ∧ (w0.state.theme = "light" ∨ w0.state.theme = "dark")
      ∧ w0.elements.themeToggle.isSome = elements.themeToggle.isSome
      ∧ w0.state.extensions = extensionsData
      ∧ (∀ prior, elements.grid = some prior →
          w0.current = "all"
          ∧ w0.elements.grid
              = some ((filterManager.get none w0).map (createExtensionCard parseHTML))) := by
  have htheme : ∃ t, getInitialTheme getThrows store prefersDark = .ok t
      ∧ (t = "light" ∨ t = "dark") := by
    unfold getInitialTheme localStorage_getItem
    cases getThrows <;> cases prefersDark <;> simp
    all_goals
      cases hs : store "bem-theme" with
      | none => simp
      | some v =>
        by_cases hv : v = "dark" ∨ v = "light"
        · simp [hv]
          rcases hv with h | h <;> simp [h]
        · simp [hv]
  obtain ⟨t, ht, htv⟩ := htheme
  obtain ⟨w1, hw1, h1, h2, h3, h4, h5, _, _⟩ :=
    applyTheme_ok assets t setThrows
      { state := { extensions := extensionsData, theme := t }
        current := "all"
        elements := elements
        body := body
        localStorage := store }
  refine ⟨filterManager.apply parseHTML none w1, ?_, ?_, ?_, ?_, ?_⟩
  · simp [init, ht, hw1]
  · rw [(apply_frame parseHTML none w1).1, h1]
    exact htv
  · rw [(apply_frame parseHTML none w1).2.2.2.1, h5]
  · rw [(apply_frame parseHTML none w1).1, h2]
  · intro prior hprior
    have hg : w1.elements.grid = some prior := by rw [h4]; exact hprior
    obtain ⟨hc, hgrid⟩ := apply_grid parseHTML none w1 prior hg
    refine ⟨?_, hgrid⟩
    rw [hc]
    simp [h3]

/-- One click on an existing theme toggle. -/
theorem themeToggleClick_ok (assets : Assets) (setThrows : Bool) (w : World)
    (htoggle : w.elements.themeToggle.isSome = true) :
    ∃ w', themeToggleClick assets setThrows w = .ok w'
      ∧ w'.state.theme = (if w.state.theme = "dark" then "light" else "dark")
      ∧ w'.elements.themeToggle.isSome = true
      ∧ (setThrows = false → w'.localStorage "bem-theme" = some w'.state.theme) := by
  obtain ⟨button, hb⟩ := Option.isSome_iff_exists.mp htoggle
  obtain ⟨w', hw', h1, _, _, _, h5, _, h7⟩ :=
    applyTheme_ok assets (if w.state.theme = "dark" then "light" else "dark") setThrows w
  refine ⟨w', ?_, h1, ?_, ?_⟩
  · simp [themeToggleClick, hb, hw']
  · rw [h5]; exact htoggle
  · intro hs
    rw [h7 hs, h1]

/-- Any number of clicks on an existing theme toggle, from a world whose theme
is `"light"` or `"dark"`, succeeds and ends in such a world. -/
theorem themeClicks_ok (assets : Assets) (clicks : List Bool) (w : World)
    (htoggle : w.elements.themeToggle.isSome = true)
    (htheme : w.state.theme = "light" ∨ w.state.theme = "dark") :
    ∃ w', themeClicks assets clicks w = .ok w'
      ∧ w'.elements.themeToggle.isSome = true
      ∧ (w'.state.theme = "light" ∨ w'.state.theme = "dark") := by
  induction clicks generalizing w with
  | nil => exact ⟨w, rfl, htoggle, htheme⟩
  | cons c rest ih =>
    obtain ⟨w1, hw1, ht1, hs1, _⟩ := themeToggleClick_ok assets c w htoggle
    have htheme1 : w1.state.theme = "light" ∨ w1.state.theme = "dark" := by
      rw [ht1]
      by_cases hd : w.state.theme = "dark"
      · simp [hd]
      · simp [hd]
    obtain ⟨w', hw', h1, h2⟩ := ih w1 hs1 htheme1
    exact ⟨w', by simp [themeClicks, hw1, hw'], h1, h2⟩

/-- C7: in every theme state reached from start-up by any number of clicks on
the theme toggle, one more click switches `state.theme` to the other of
`"light"` and `"dark"`, and a second click brings `state.theme` back to the
value it had; if the second click's storage write succeeds, that value is then
the one stored under `"bem-theme"`. -/
theorem theme_toggle_twice (parseHTML : String → CardContent) (assets : Assets)
    (extensionsData : List ExtensionRecord) (elements : Elements) (body : Body)
    (store : Storage) (getThrows setThrows prefersDark : Bool) (clicks : List Bool)
    (first second : Bool)
    (htoggle : elements.themeToggle.isSome = true) :
    ∃ w0 w w1 w2,
      init parseHTML assets extensionsData elements body store getThrows setThrows
          prefersDark = .ok w0
      ∧ themeClicks assets clicks w0 = .ok w
      ∧ themeToggleClick assets first w = .ok w1
      ∧ themeToggleClick assets second w1 = .ok w2
      ∧ ((w.state.theme = "light" ∧ w1.state.theme = "dark")
          ∨ (w.state.theme = "dark" ∧ w1.state.theme = "light"))
      ∧ w2.state.theme = w.state.theme
      ∧ (second = false → w2.localStorage "bem-theme" = some w.state.theme) := by
  obtain ⟨w0, hw0, ht0, hs0, _, _⟩ :=
    init_ok parseHTML assets extensionsData elements body store getThrows setThrows
      prefersDark
  rw [htoggle] at hs0
  obtain ⟨w, hw, hs, ht⟩ := themeClicks_ok assets clicks w0 hs0 ht0
  obtain ⟨w1, hw1, ht1, hs1, _⟩ := themeToggleClick_ok assets first w hs
  obtain ⟨w2, hw2, ht2, _, hst2⟩ := themeToggleClick_ok assets second w1 hs1
  have hback : w2.state.theme = w.state.theme := by
    rw [ht2, ht1]
    rcases ht with h | h <;> simp [h]
  refine ⟨w0, w, w1, w2, hw0, hw, hw1, hw2, ?_, hback, ?_⟩
  · rw [ht1]
    rcases ht with h | h <;> simp [h]
  · intro hsec
    rw [hst2 hsec, hback]

/-- Witness for C7: on the sample page with an empty storage and a light OS
preference, after three clicks (the second with a failing write) two further
clicks end in a world whose theme and stored theme are both `"dark"`. -/
theorem theme_toggle_twice_witness :
    ∃ w0 w w1 w2,
      init sampleBrowser sampleAssets seedAB samplePage sampleBody emptyStorage
          false false false = .ok w0
      ∧ themeClicks sampleAssets [false, true, false] w0 = .ok w
      ∧ themeToggleClick sampleAssets false w = .ok w1
      ∧ themeToggleClick sampleAssets false w1 = .ok w2
      ∧ w.state.theme = "dark" ∧ w1.state.theme = "light" ∧ w2.state.theme = "dark"
      ∧ w2.localStorage "bem-theme" = some "dark" := by
  obtain ⟨w0, w, w1, w2, h0, h, h1, h2, hflip, hback, hstored⟩ :=
    theme_toggle_twice sampleBrowser sampleAssets seedAB samplePage sampleBody emptyStorage
      false false false [false, true, false] false false rfl
  cases h0
  cases h
  cases h1
  cases h2
  exact ⟨_, _, _, _, rfl, rfl, rfl, rfl, rfl, rfl, hback, hstored rfl⟩

/-! ## Grid actions: toggle -/

theorem findExtension_first (t : String) (pre : List ExtensionRecord) (r : ExtensionRecord)
    (post : List ExtensionRecord) (hpre : ∀ x ∈ pre, x.name ≠ t) (hr : r.name = t) :
    findExtension t (pre ++ r :: post) = some pre.length := by
  induction pre with
  | nil => simp [findExtension, hr]
  | cons x xs ih =>
    have hx : x.name ≠ t := hpre x (List.mem_cons_self x xs)
    have hxs : ∀ y ∈ xs, y.name ≠ t := fun y hy => hpre y (List.mem_cons_of_mem x hy)
    simp [findExtension, hx, ih hxs]

theorem findExtension_some (t : String) (l : List ExtensionRecord) (j : Nat)
    (h : findExtension t l = some j) : ∃ e, l[j]? = some e ∧ e.name = t := by
  induction l generalizing j with
  | nil => simp [findExtension] at h
  | cons x xs ih =>
    by_cases hx : x.name = t
    · simp [findExtension, hx] at h
      subst h
      exact ⟨x, by simp, hx⟩
    · simp [findExtension, hx] at h
      obtain ⟨j', hj', rfl⟩ := h
      obtain ⟨e, he, hn⟩ := ih j' hj'
      exact ⟨e, by simpa using he, hn⟩

theorem findExtension_of_mem (l : List ExtensionRecord) (r : ExtensionRecord) (h : r ∈ l) :
    ∃ j, findExtension r.name l = some j := by
  induction l with
  | nil => cases h
  | cons x xs ih =>
    by_cases hx : x.name = r.name
    · exact ⟨0, by simp [findExtension, hx]⟩
    · rcases List.mem_cons.mp h with rfl | hmem
      · exact absurd rfl hx
      · obtain ⟨j, hj⟩ := ih hmem
        exact ⟨j + 1, by simp [findExtension, hx, hj]⟩

theorem set_append_cons (pre : List ExtensionRecord) (r r' : ExtensionRecord)
    (post : List ExtensionRecord) :
    (pre ++ r :: post).set pre.length r' = pre ++ r' :: post := by
  induction pre with
  | nil => rfl
  | cons x xs ih => simp [ih]

theorem eraseIdx_append_cons (a : List Card) (c : Card) (b : List Card) :
    (a ++ c :: b).eraseIdx a.length = a ++ b := by
  induction a with
  | nil => rfl
  | cons x xs ih => simp [ih]

/-- The effect of a checkbox change on card `i` that has a checkbox and whose
title names a record: the first record with that name takes the new value of
the checkbox, the filter key is kept, and the grid is rendered again from the
new list. -/
theorem checkboxChange_found (parseHTML : String → CardContent) (w : World)
    (children : List Card) (i : Nat) (card : Card) (input : Checkbox) (t : String)
    (j : Nat) (e : ExtensionRecord)
    (hgrid : w.elements.grid = some children) (hcard : children[i]? = some card)
    (hbox : card.content.checkbox = some input)
    (htitle : card.content.title = some t)
    (hfind : findExtension t w.state.extensions = some j)
    (hrec : w.state.extensions[j]? = some e) :
    (checkboxChange parseHTML i w).state.extensions
        = w.state.extensions.set j { e with isActive := !input.checked }
    ∧ (checkboxChange parseHTML i w).state.theme = w.state.theme
    ∧ (checkboxChange parseHTML i w).current = w.current
    ∧ (checkboxChange parseHTML i w).elements.grid
        = some ((filterManager.get none (checkboxChange parseHTML i w)).map
            (createExtensionCard parseHTML)) := by
  have hi : i < children.length := (List.getElem?_eq_some.mp hcard).1
  simp [checkboxChange, hgrid, hcard, hbox, updateExtensionCard, hi, htitle, hfind, hrec,
    filterManager.apply, renderExtensions_some, filterManager.get]

/-- A checkbox change aimed at a position that holds no card does nothing. -/
theorem checkboxChange_absent (parseHTML : String → CardContent) (w : World)
    (children : List Card) (i : Nat)
    (hgrid : w.elements.grid = some children) (hcard : children[i]? = none) :
    checkboxChange parseHTML i w = w := by
  simp [checkboxChange, hgrid, hcard]

/-- The grid that `filterManager.apply(k)` renders. -/
theorem apply_render (parseHTML : String → CardContent) (k : String) (w : World)
    (prior : List Card) (hgrid : w.elements.grid = some prior) :
    (filterManager.apply parseHTML (some k) w).elements.grid
        = some ((w.state.extensions.filter (keeps k)).map (createExtensionCard parseHTML))
    ∧ (filterManager.apply parseHTML (some k) w).current = k
    ∧ (filterManager.apply parseHTML (some k) w).state = w.state := by
  refine ⟨?_, ?_, (apply_frame parseHTML (some k) w).1⟩
  · have h := get_eq_filter k { w with current := k }
    simp only [filterManager.apply, hgrid, Option.getD_some, renderExtensions_some, h]
  · simp [filterManager.apply, hgrid]

/-- The card rendered from a record `r` that the filter keeps sits after the
cards of the kept records that precede `r`. -/
theorem rendered_card_position (parseHTML : String → CardContent) (k : String)
    (pre : List ExtensionRecord) (r : ExtensionRecord) (post : List ExtensionRecord)
    (hkeep : keeps k r = true) :
    ((pre ++ r :: post).filter (keeps k)).map (createExtensionCard parseHTML)
      = (pre.filter (keeps k)).map (createExtensionCard parseHTML)
          ++ createExtensionCard parseHTML r
            :: (post.filter (keeps k)).map (createExtensionCard parseHTML)
    ∧ (((pre ++ r :: post).filter (keeps k)).map (createExtensionCard parseHTML))[
          (pre.filter (keeps k)).length]?
        = some (createExtensionCard parseHTML r) := by
  have h1 : ((pre ++ r :: post).filter (keeps k)).map (createExtensionCard parseHTML)
      = (pre.filter (keeps k)).map (createExtensionCard parseHTML)
          ++ createExtensionCard parseHTML r
            :: (post.filter (keeps k)).map (createExtensionCard parseHTML) := by
    simp [List.filter_append, List.filter_cons, hkeep]
  refine ⟨h1, ?_⟩
  rw [h1, List.getElem?_append_right (by simp)]
  simp

/-- The toggle of a card whose record is plain and the first of its name: the
state after the change, and the grid after the re-render. -/
theorem toggle_first_of_name (parseHTML : String → CardContent) (w : World) (k : String)
    (pre : List ExtensionRecord) (r : ExtensionRecord) (post : List ExtensionRecord)
    (prior : List Card)
    (hgrid : w.elements.grid = some prior)
    (hexts : w.state.extensions = pre ++ r :: post)
    (hkeep : keeps k r = true)
    (hplain : plainRecord r = true)
    (hfirst : ∀ x ∈ pre, x.name ≠ r.name) :
    (checkboxChange parseHTML (pre.filter (keeps k)).length
        (filterManager.apply parseHTML (some k) w)).state.extensions
      = pre ++ { r with isActive := !r.isActive } :: post
    ∧ (checkboxChange parseHTML (pre.filter (keeps k)).length
        (filterManager.apply parseHTML (some k) w)).current = k
    ∧ (checkboxChange parseHTML (pre.filter (keeps k)).length
        (filterManager.apply parseHTML (some k) w)).elements.grid
      = some (((pre ++ { r with isActive := !r.isActive } :: post).filter (keeps k)).map
          (createExtensionCard parseHTML)) := by
  obtain ⟨hg1, hc1, hs1⟩ := apply_render parseHTML k w prior hgrid
  have hpos := (rendered_card_position parseHTML k pre r post hkeep).2
  have hexts1 :
      (filterManager.apply parseHTML (some k) w).state.extensions = pre ++ r :: post := by
    rw [hs1, hexts]
  rw [hexts] at hg1
  have hcontent : (createExtensionCard parseHTML r).content = templateContent r := by
    rw [createExtensionCard_plain parseHTML r hplain]
  have hbox : (createExtensionCard parseHTML r).content.checkbox
      = some { checkedAttr := r.isActive, checked := r.isActive } := by
    rw [hcontent]; rfl
  have htitle : (createExtensionCard parseHTML r).content.title = some r.name := by
    rw [hcontent]; rfl
  have hfind : findExtension r.name
      (filterManager.apply parseHTML (some k) w).state.extensions = some pre.length := by
    rw [hexts1]
    exact findExtension_first r.name pre r post hfirst rfl
  have hrec :
      (filterManager.apply parseHTML (some k) w).state.extensions[pre.length]? = some r := by
    rw [hexts1, List.getElem?_append_right (Nat.le_refl _)]
    simp
  obtain ⟨h1, _, h3, h4⟩ :=
    checkboxChange_found parseHTML (filterManager.apply parseHTML (some k) w) _ _ _ _ _ _ _
      hg1 hpos hbox htitle hfind hrec
  have hnew : (checkboxChange parseHTML (pre.filter (keeps k)).length
      (filterManager.apply parseHTML (some k) w)).state.extensions
      = pre ++ { r with isActive := !r.isActive } :: post := by
    rw [h1, hexts1, set_append_cons]
  refine ⟨hnew, by rw [h3, hc1], ?_⟩
  rw [h4, get_none, get_eq_filter, hnew, h3, hc1]

/-- C2, amended: let a grid be rendered by `filterManager.apply(k)` and take a
card of it, rendered from a record `r` whose fields are plain text and that no
earlier record of `state.extensions` shares its name with.  A checkbox change
on that card sets `r.isActive` to the new value of the checkbox, the opposite
of the old one, and leaves every other record, and the length and order of
`state.extensions`, unchanged. -/
theorem updateExtensionCard_flips_record (parseHTML : String → CardContent) (w : World)
    (k : String) (pre : List ExtensionRecord) (r : ExtensionRecord)
    (post : List ExtensionRecord) (prior : List Card)
    (hgrid : w.elements.grid = some prior)
    (hexts : w.state.extensions = pre ++ r :: post)
    (hkeep : keeps k r = true)
    (hplain : plainRecord r = true)
    (hfirst : ∀ x ∈ pre, x.name ≠ r.name) :
    (∃ children, (filterManager.apply parseHTML (some k) w).elements.grid = some children
        ∧ children[(pre.filter (keeps k)).length]? = some (createExtensionCard parseHTML r))
    ∧ (checkboxChange parseHTML (pre.filter (keeps k)).length
          (filterManager.apply parseHTML (some k) w)).state.extensions
        = pre ++ { r with isActive := !r.isActive } :: post
    ∧ (checkboxChange parseHTML (pre.filter (keeps k)).length
          (filterManager.apply parseHTML (some k) w)).state.extensions.length
        = w.state.extensions.length := by
  obtain ⟨hnew, _, _⟩ :=
    toggle_first_of_name parseHTML w k pre r post prior hgrid hexts hkeep hplain hfirst
  refine ⟨⟨_, (apply_render parseHTML k w prior hgrid).1, ?_⟩, hnew, ?_⟩
  · rw [hexts]
    exact (rendered_card_position parseHTML k pre r post hkeep).2
  · rw [hnew, hexts]
    simp

/-- Witness for C2: on the seed list under the filter `"all"`, a change on the
second card (rendered from `B`) makes `B` active and leaves `A` as it was. -/
theorem updateExtensionCard_flips_record_witness :
    (checkboxChange sampleBrowser 1
        (filterManager.apply sampleBrowser (some "all")
          (sampleWorld seedAB "all" []))).state.extensions
      = [ { name := "A", description := "first", logo := "a.svg", isActive := true },
          { name := "B", description := "second", logo := "b.svg", isActive := true } ] :=
  (updateExtensionCard_flips_record sampleBrowser (sampleWorld seedAB "all" []) "all"
    [⟨"A", "first", "a.svg", true⟩] ⟨"B", "second", "b.svg", false⟩ [] []
    rfl rfl (by decide) (by decide) (by decide)).2.1

/-- Counterexample to C2 as stated, in two parts.  With two active records both
named `X` and the filter `"all"`, the second card is rendered from the second
record; unticking it deactivates the first record and leaves the second one
active.  With the single active record named `Q&amp;A`, the card's title text is
`Q&A`, which names no record; unticking the card leaves the record active. -/
theorem updateExtensionCard_duplicate_name :
    ((filterManager.apply sampleBrowser (some "all")
          (sampleWorld seedXX "all" [])).elements.grid
        = some [createExtensionCard sampleBrowser ⟨"X", "one", "x1.svg", true⟩,
                createExtensionCard sampleBrowser ⟨"X", "two", "x2.svg", true⟩]
      ∧ (checkboxChange sampleBrowser 1
          (filterManager.apply sampleBrowser (some "all")
            (sampleWorld seedXX "all" []))).state.extensions
        = [ { name := "X", description := "one", logo := "x1.svg", isActive := false },
            { name := "X", description := "two", logo := "x2.svg", isActive := true } ]
      ∧ (checkboxChange sampleBrowser 1
          (filterManager.apply sampleBrowser (some "all")
            (sampleWorld seedXX "all" []))).state.extensions
        ≠ [ { name := "X", description := "one", logo := "x1.svg", isActive := true },
            { name := "X", description := "two", logo := "x2.svg", isActive := false } ])
    ∧ ((filterManager.apply sampleBrowser (some "all")
          (sampleWorld [entityRecord] "all" [])).elements.grid
        = some [createExtensionCard sampleBrowser entityRecord]
      ∧ (createExtensionCard sampleBrowser entityRecord).content.title = some "Q&A"
      ∧ (checkboxChange sampleBrowser 0
          (filterManager.apply sampleBrowser (some "all")
            (sampleWorld [entityRecord] "all" []))).state.extensions
        = [ { name := "Q&amp;A", description := "d", logo := "l.svg", isActive := true } ]) := by
  refine ⟨⟨by rfl, by rfl, by decide⟩, ⟨by rfl, by decide, by decide⟩⟩

/-- C3, amended: let the filter be `"active"` (respectively `"inactive"`), the
grid be rendered by `filterManager.apply`, and take a visible card whose record
`r` has plain-text fields and is the first of its name in `state.extensions`.
Ticking its checkbox off (respectively on) flips `r.isActive` and re-renders
the grid without that card and with all the other previously visible cards in
the same order. -/
theorem toggle_removes_card_under_filter (parseHTML : String → CardContent) (w : World)
    (k : String) (pre : List ExtensionRecord) (r : ExtensionRecord)
    (post : List ExtensionRecord) (prior : List Card)
    (hk : k = "active" ∨ k = "inactive")
    (hgrid : w.elements.grid = some prior)
    (hexts : w.state.extensions = pre ++ r :: post)
    (hkeep : keeps k r = true)
    (hplain : plainRecord r = true)
    (hfirst : ∀ x ∈ pre, x.name ≠ r.name) :
    ∃ children, (filterManager.apply parseHTML (some k) w).elements.grid = some children
      ∧ children[(pre.filter (keeps k)).length]? = some (createExtensionCard parseHTML r)
      ∧ (checkboxChange parseHTML (pre.filter (keeps k)).length
            (filterManager.apply parseHTML (some k) w)).elements.grid
          = some (children.eraseIdx (pre.filter (keeps k)).length)
      ∧ (checkboxChange parseHTML (pre.filter (keeps k)).length
            (filterManager.apply parseHTML (some k) w)).state.extensions
          = pre ++ { r with isActive := !r.isActive } :: post
      ∧ (checkboxChange parseHTML (pre.filter (keeps k)).length
            (filterManager.apply parseHTML (some k) w)).current = k := by
  obtain ⟨hnew, hcur, hg⟩ :=
    toggle_first_of_name parseHTML w k pre r post prior hgrid hexts hkeep hplain hfirst
  obtain ⟨hsplit, hpos⟩ := rendered_card_position parseHTML k pre r post hkeep
  have hdrop : keeps k { r with isActive := !r.isActive } = false := by
    rcases hk with rfl | rfl <;> simp [keeps] at hkeep ⊢ <;> simp [hkeep]
  refine ⟨_, (apply_render parseHTML k w prior hgrid).1, ?_, ?_, hnew, hcur⟩
  · rw [hexts]
    exact hpos
  · rw [hg, hexts, hsplit]
    have hlen : (pre.filter (keeps k)).length
        = ((pre.filter (keeps k)).map (createExtensionCard parseHTML)).length := by simp
    rw [hlen, eraseIdx_append_cons]
    simp [List.filter_append, List.filter_cons, hdrop]

/-- Witness for C3, the example of the specification: with the seed list
`[A active, B inactive]` and the filter `"inactive"` the grid is exactly the
card of `B`; ticking it on makes `B` active and the re-rendered grid empty. -/
theorem toggle_removes_card_under_filter_witness :
    (filterManager.apply sampleBrowser (some "inactive")
        (sampleWorld seedAB "all" [])).elements.grid
      = some [createExtensionCard sampleBrowser ⟨"B", "second", "b.svg", false⟩]
    ∧ (checkboxChange sampleBrowser 0
        (filterManager.apply sampleBrowser (some "inactive")
          (sampleWorld seedAB "all" []))).elements.grid
      = some []
    ∧ (checkboxChange sampleBrowser 0
        (filterManager.apply sampleBrowser (some "inactive")
          (sampleWorld seedAB "all" []))).state.extensions
      = [ { name := "A", description := "first", logo := "a.svg", isActive := true },
          { name := "B", description := "second", logo := "b.svg", isActive := true } ] := by
  obtain ⟨children, hchildren, _, hafter, hstate, _⟩ :=
    toggle_removes_card_under_filter sampleBrowser (sampleWorld seedAB "all" []) "inactive"
      [⟨"A", "first", "a.svg", true⟩] ⟨"B", "second", "b.svg", false⟩ [] []
      (Or.inr rfl) rfl rfl (by decide) (by decide) (by decide)
  have hgrid : (filterManager.apply sampleBrowser (some "inactive")
      (sampleWorld seedAB "all" [])).elements.grid
      = some [createExtensionCard sampleBrowser ⟨"B", "second", "b.svg", false⟩] := by rfl
  have hc : children = [createExtensionCard sampleBrowser ⟨"B", "second", "b.svg", false⟩] := by
    rw [hgrid] at hchildren
    exact (Option.some.inj hchildren).symm
  subst hc
  exact ⟨hgrid, hafter, hstate⟩

/-- Counterexample to C3 as stated, in two parts.  With two active records both
named `X` and the filter `"active"`, unticking the second card deactivates the
first record; the re-rendered grid holds the card of the second record, which
was the one unticked, and no longer the card of the first.  With the single
active record named `Q&amp;A` and the filter `"active"`, unticking its card
finds no record for the title `Q&A`: nothing is re-rendered and the unticked
card stays in the grid. -/
theorem toggle_duplicate_name_keeps_card :
    ((filterManager.apply sampleBrowser (some "active")
          (sampleWorld seedXX "all" [])).elements.grid
        = some [createExtensionCard sampleBrowser ⟨"X", "one", "x1.svg", true⟩,
                createExtensionCard sampleBrowser ⟨"X", "two", "x2.svg", true⟩]
      ∧ (checkboxChange sampleBrowser 1
          (filterManager.apply sampleBrowser (some "active")
            (sampleWorld seedXX "all" []))).elements.grid
        = some [createExtensionCard sampleBrowser ⟨"X", "two", "x2.svg", true⟩]
      ∧ (checkboxChange sampleBrowser 1
          (filterManager.apply sampleBrowser (some "active")
            (sampleWorld seedXX "all" []))).elements.grid
        ≠ some ([createExtensionCard sampleBrowser ⟨"X", "one", "x1.svg", true⟩,
                 createExtensionCard sampleBrowser ⟨"X", "two", "x2.svg", true⟩].eraseIdx 1))
    ∧ ((filterManager.apply sampleBrowser (some "active")
          (sampleWorld [entityRecord] "all" [])).elements.grid
        = some [createExtensionCard sampleBrowser entityRecord]
      ∧ (checkboxChange sampleBrowser 0
          (filterManager.apply sampleBrowser (some "active")
            (sampleWorld [entityRecord] "all" []))).elements.grid
        = some [ { content :=
                     { logoSrc := some "l.svg", logoAlt := some "Q&A logo"
                       title := some "Q&A", description := some "d"
                       checkbox := some { checkedAttr := false, checked := false } }
                   dataActive := false } ]
      ∧ (checkboxChange sampleBrowser 0
          (filterManager.apply sampleBrowser (some "active")
            (sampleWorld [entityRecord] "all" []))).elements.grid
        ≠ some ([createExtensionCard sampleBrowser entityRecord].eraseIdx 0)) := by
  refine ⟨⟨by rfl, by rfl, by decide⟩, ⟨by rfl, by decide, by decide⟩⟩

/-! ## The grid and the filtered list -/

/-- A grid that is the rendering of the filtered list of plain records
satisfies the invariant. -/
theorem sync_names_records (parseHTML : String → CardContent) (w : World)
    (hplain : ∀ r ∈ w.state.extensions, plainRecord r = true)
    (hsync : w.elements.grid
      = some ((filterManager.get none w).map (createExtensionCard parseHTML))) :
    CardsNameRecords w := by
  refine ⟨hplain, _, hsync, ?_⟩
  intro c hc
  obtain ⟨r, hr, rfl⟩ := List.mem_map.mp hc
  have hsub : (filterManager.get none w).Sublist w.state.extensions := by
    rw [get_none, get_eq_filter]
    exact List.filter_sublist _
  have hmem : r ∈ w.state.extensions := hsub.subset hr
  rw [createExtensionCard_plain parseHTML r (hplain r hmem)]
  exact ⟨⟨_, rfl⟩, r.name, rfl, r, hmem, rfl⟩

/-- Under the invariant, a checkbox change on a card of the grid re-renders:
afterwards the grid is the rendering of the filtered list, and the records are
still plain. -/
theorem checkboxChange_resync (parseHTML : String → CardContent) (w : World)
    (children : List Card) (i : Nat) (hinv : CardsNameRecords w)
    (hgrid : w.elements.grid = some children) (hi : i < children.length) :
    (checkboxChange parseHTML i w).elements.grid
        = some ((filterManager.get none (checkboxChange parseHTML i w)).map
            (createExtensionCard parseHTML))
    ∧ ∀ r ∈ (checkboxChange parseHTML i w).state.extensions, plainRecord r = true := by
  obtain ⟨hplain, children', hgrid', hcards⟩ := hinv
  rw [hgrid] at hgrid'
  cases hgrid'
  have hcard : children[i]? = some children[i] := List.getElem?_eq_getElem hi
  obtain ⟨⟨input, hbox⟩, t, htitle, r, hr, hname⟩ := hcards children[i] (List.getElem_mem hi)
  obtain ⟨j, hj⟩ := findExtension_of_mem w.state.extensions r hr
  rw [hname] at hj
  obtain ⟨e, he, _⟩ := findExtension_some t w.state.extensions j hj
  obtain ⟨h1, _, _, h4⟩ :=
    checkboxChange_found parseHTML w children i _ input t j e hgrid hcard hbox htitle hj he
  refine ⟨h4, ?_⟩
  intro x hx
  rw [h1] at hx
  rcases List.mem_or_eq_of_mem_set hx with hmem | rfl
  · exact hplain x hmem
  · exact hplain e (List.getElem?_mem he)

/-- Every user action keeps the invariant. -/
theorem step_names_records (parseHTML : String → CardContent) (w : World) (a : Action)
    (hinv : CardsNameRecords w) : CardsNameRecords (step parseHTML w a) := by
  obtain ⟨hplain, children, hgrid, hcards⟩ := hinv
  cases a with
  | filterClick button =>
    have hstate := (apply_frame parseHTML (some button.key) w).1
    refine sync_names_records parseHTML _ ?_ (apply_grid parseHTML _ w children hgrid).2
    intro r hr
    rw [show (step parseHTML w (Action.filterClick button)).state = w.state from hstate] at hr
    exact hplain r hr
  | removeClick i =>
    show CardsNameRecords (removeExtensionCard (some i) w)
    cases hcard : children[i]? with
    | none =>
      have hsame : removeExtensionCard (some i) w = w := by
        simp [removeExtensionCard, hgrid, hcard]
      rw [hsame]
      exact ⟨hplain, children, hgrid, hcards⟩
    | some card =>
      have hrem : removeExtensionCard (some i) w
          = { w with elements := { w.elements with grid := some (children.eraseIdx i) } } := by
        simp [removeExtensionCard, hgrid, hcard]
      rw [hrem]
      refine ⟨hplain, _, rfl, ?_⟩
      intro c hc
      exact hcards c ((List.eraseIdx_sublist children i).subset hc)
  | checkboxChange i =>
    show CardsNameRecords (checkboxChange parseHTML i w)
    by_cases hi : i < children.length
    · obtain ⟨hsync, hplain'⟩ :=
        checkboxChange_resync parseHTML w children i ⟨hplain, children, hgrid, hcards⟩ hgrid hi
      exact sync_names_records parseHTML _ hplain' hsync
    · have hnone : children[i]? = none := List.getElem?_eq_none (Nat.le_of_not_lt hi)
      rw [checkboxChange_absent parseHTML w children i hgrid hnone]
      exact ⟨hplain, children, hgrid, hcards⟩

/-- Any sequence of user actions keeps the invariant. -/
theorem run_names_records (parseHTML : String → CardContent) (w : World)
    (actions : List Action) (hinv : CardsNameRecords w) :
    CardsNameRecords (run parseHTML w actions) := by
  induction actions generalizing w with
  | nil => exact hinv
  | cons a rest ih => exact ih (step parseHTML w a) (step_names_records parseHTML w a hinv)

/-- A filter click or a checkbox change, taken in a state that satisfies the
invariant and whose grid is the rendering of the filtered list, ends in such a
state. -/
theorem step_in_sync (parseHTML : String → CardContent) (w : World) (a : Action)
    (hinv : CardsNameRecords w)
    (hsync : w.elements.grid
      = some ((filterManager.get none w).map (createExtensionCard parseHTML)))
    (hno : ∀ i, a ≠ Action.removeClick i) :
    (step parseHTML w a).elements.grid
      = some ((filterManager.get none (step parseHTML w a)).map
          (createExtensionCard parseHTML)) := by
  cases a with
  | filterClick button => exact (apply_grid parseHTML (some button.key) w _ hsync).2
  | removeClick i => exact absurd rfl (hno i)
  | checkboxChange i =>
    show (checkboxChange parseHTML i w).elements.grid
      = some ((filterManager.get none (checkboxChange parseHTML i w)).map
          (createExtensionCard parseHTML))
    by_cases hi : i < ((filterManager.get none w).map (createExtensionCard parseHTML)).length
    · exact (checkboxChange_resync parseHTML w _ i hinv hsync hi).1
    · rw [checkboxChange_absent parseHTML w _ i hsync
        (List.getElem?_eq_none (Nat.le_of_not_lt hi))]
      exact hsync

/-- Any sequence of filter clicks and checkbox changes keeps the grid equal to
the rendering of the filtered list. -/
theorem run_in_sync (parseHTML : String → CardContent) (w : World) (actions : List Action)
    (hinv : CardsNameRecords w)
    (hsync : w.elements.grid
      = some ((filterManager.get none w).map (createExtensionCard parseHTML)))
    (hno : ∀ a ∈ actions, ∀ i, a ≠ Action.removeClick i) :
    (run parseHTML w actions).elements.grid
      = some ((filterManager.get none (run parseHTML w actions)).map
          (createExtensionCard parseHTML)) := by
  induction actions generalizing w with
  | nil => exact hsync
  | cons a rest ih =>
    have hstep := step_in_sync parseHTML w a hinv hsync (hno a (List.mem_cons_self a rest))
    exact ih (step parseHTML w a) (step_names_records parseHTML w a hinv) hstep
      (fun b hb => hno b (List.mem_cons_of_mem a hb))

theorem run_append (parseHTML : String → CardContent) (w : World)
    (before after : List Action) :
    run parseHTML w (before ++ after) = run parseHTML (run parseHTML w before) after := by
  simp [run, List.foldl_append]

/-- C4, amended: let every seed record have plain-text fields.  In every state
reached from the initial render by user actions in which no remove click has
occurred since the last render (the initial render, a filter button click, or a
checkbox change on a card of the grid), the cards in the grid are exactly the
cards of `filterManager.get(filterManager.current)` over the current
`state.extensions`, in that order.  Here `before` is any sequence of actions,
remove clicks included, and `after` any sequence without a remove click. -/
theorem grid_in_sync_since_render (parseHTML : String → CardContent) (assets : Assets)
    (extensionsData : List ExtensionRecord) (elements : Elements) (body : Body)
    (store : Storage) (getThrows setThrows prefersDark : Bool) (prior : List Card)
    (before after : List Action)
    (hgrid : elements.grid = some prior)
    (hplain : ∀ r ∈ extensionsData, plainRecord r = true)
    (hafter : ∀ a ∈ after, ∀ i, a ≠ Action.removeClick i) :
    ∃ w0,
      init parseHTML assets extensionsData elements body store getThrows setThrows
          prefersDark = .ok w0
      ∧ (run parseHTML w0 after).elements.grid
          = some ((filterManager.get none (run parseHTML w0 after)).map
              (createExtensionCard parseHTML))
      ∧ (∀ button,
          (run parseHTML w0 (before ++ Action.filterClick button :: after)).elements.grid
            = some ((filterManager.get none
                (run parseHTML w0 (before ++ Action.filterClick button :: after))).map
                  (createExtensionCard parseHTML)))
      ∧ (∀ i children, (run parseHTML w0 before).elements.grid = some children →
          i < children.length →
          (run parseHTML w0 (before ++ Action.checkboxChange i :: after)).elements.grid
            = some ((filterManager.get none
                (run parseHTML w0 (before ++ Action.checkboxChange i :: after))).map
                  (createExtensionCard parseHTML))) := by
  obtain ⟨w0, hw0, _, _, hdata, hinit⟩ :=
    init_ok parseHTML assets extensionsData elements body store getThrows setThrows
      prefersDark
  have hsync0 := (hinit prior hgrid).2
  have hinv0 : CardsNameRecords w0 :=
    sync_names_records parseHTML w0 (by rw [hdata]; exact hplain) hsync0
  have hinv1 : CardsNameRecords (run parseHTML w0 before) :=
    run_names_records parseHTML w0 before hinv0
  have hsplit : ∀ a, run parseHTML w0 (before ++ a :: after)
      = run parseHTML (step parseHTML (run parseHTML w0 before) a) after := by
    intro a
    rw [run_append]
    rfl
  refine ⟨w0, hw0, run_in_sync parseHTML w0 after hinv0 hsync0 hafter, ?_, ?_⟩
  · intro button
    rw [hsplit]
    obtain ⟨children, hchildren, _⟩ := hinv1.2
    exact run_in_sync parseHTML _ after
      (step_names_records parseHTML _ (Action.filterClick button) hinv1)
      (apply_grid parseHTML (some button.key) _ children hchildren).2 hafter
  · intro i children hchildren hi
    rw [hsplit]
    exact run_in_sync parseHTML _ after
      (step_names_records parseHTML _ (Action.checkboxChange i) hinv1)
      (checkboxChange_resync parseHTML _ children i hinv1 hchildren hi).1 hafter

/-- Witness for C4: from the seed list, removing the card of `A`, then clicking
the all filter and ticking the card of `B`, ends with the cards of `A` and of
the now active `B`, which are the cards of the filtered list. -/
theorem grid_in_sync_since_render_witness :
    ∃ w0,
      init sampleBrowser sampleAssets seedAB samplePage sampleBody emptyStorage
          false false false = .ok w0
      ∧ (run sampleBrowser w0
            ([Action.removeClick 0]
              ++ Action.filterClick FilterButton.filterAll
                :: [Action.checkboxChange 1])).elements.grid
          = some ((filterManager.get none
              (run sampleBrowser w0
                ([Action.removeClick 0]
                  ++ Action.filterClick FilterButton.filterAll
                    :: [Action.checkboxChange 1]))).map (createExtensionCard sampleBrowser))
      ∧ (run sampleBrowser w0
            ([Action.removeClick 0]
              ++ Action.filterClick FilterButton.filterAll
                :: [Action.checkboxChange 1])).elements.grid
          = some [createExtensionCard sampleBrowser ⟨"A", "first", "a.svg", true⟩,
                  createExtensionCard sampleBrowser ⟨"B", "second", "b.svg", true⟩] := by
  obtain ⟨w0, h0, _, hfilter, _⟩ :=
    grid_in_sync_since_render sampleBrowser sampleAssets seedAB samplePage sampleBody
      emptyStorage false false false [] [Action.removeClick 0] [Action.checkboxChange 1]
      rfl (by decide)
      (by
        intro a ha i
        simp only [List.mem_singleton] at ha
        subst ha
        simp)
  have hsync := hfilter FilterButton.filterAll
  cases h0
  exact ⟨_, rfl, hsync, by rfl⟩

/-- Counterexample to C4 as stated, in two parts.  From the seed list, one
remove click on the first card leaves only the card of `B` in the grid, while
`filterManager.get(filterManager.current)` still yields `A` and `B`.  From the
single active record named `Q&amp;A`, unticking its card finds no record for the
title `Q&A`: the grid keeps the unticked card while the filtered list still
renders to the ticked one. -/
theorem grid_out_of_sync_after_remove :
    (∃ w0,
      init sampleBrowser sampleAssets seedAB samplePage sampleBody emptyStorage
          false false false = .ok w0
      ∧ (run sampleBrowser w0 [Action.removeClick 0]).elements.grid
          = some [createExtensionCard sampleBrowser ⟨"B", "second", "b.svg", false⟩]
      ∧ (filterManager.get none (run sampleBrowser w0 [Action.removeClick 0])).map
            (createExtensionCard sampleBrowser)
          = [createExtensionCard sampleBrowser ⟨"A", "first", "a.svg", true⟩,
             createExtensionCard sampleBrowser ⟨"B", "second", "b.svg", false⟩]
      ∧ (run sampleBrowser w0 [Action.removeClick 0]).elements.grid
          ≠ some ((filterManager.get none
              (run sampleBrowser w0 [Action.removeClick 0])).map
                (createExtensionCard sampleBrowser)))
    ∧ (∃ w0,
      init sampleBrowser sampleAssets [entityRecord] samplePage sampleBody emptyStorage
          false false false = .ok w0
      ∧ (run sampleBrowser w0 [Action.checkboxChange 0]).state.extensions = [entityRecord]
      ∧ (run sampleBrowser w0 [Action.checkboxChange 0]).elements.grid
          ≠ some ((filterManager.get none
              (run sampleBrowser w0 [Action.checkboxChange 0])).map
                (createExtensionCard sampleBrowser))) := by
  refine ⟨⟨_, rfl, by rfl, by rfl, by decide⟩, ⟨_, rfl, by decide, by decide⟩⟩

/-! ## Removal is view-only -/

/-- C10: removal is not remembered.  After a remove click on card `i`, a
filter click re-renders exactly what it would have rendered without the
removal, so the grid again holds a card for every record of the unchanged
`state.extensions` that the filter keeps, the removed card's record included;
and a checkbox change on a remaining card whose title names a record
re-renders a grid that holds a card for every record of `state.extensions`
that the filter in force keeps. -/
theorem removal_not_remembered (parseHTML : String → CardContent) (w : World)
    (children : List Card) (i : Nat)
    (hgrid : w.elements.grid = some children) (hi : i < children.length) :
    (∀ k,
      filterManager.apply parseHTML (some k) (removeExtensionCard (some i) w)
        = filterManager.apply parseHTML (some k) w
      ∧ (filterManager.apply parseHTML (some k)
          (removeExtensionCard (some i) w)).state.extensions
        = w.state.extensions
      ∧ ∀ r ∈ w.state.extensions, keeps k r = true →
          ∃ grid, (filterManager.apply parseHTML (some k)
                (removeExtensionCard (some i) w)).elements.grid = some grid
            ∧ createExtensionCard parseHTML r ∈ grid)
    ∧ (∀ (other : Nat) (card : Card) (input : Checkbox) (t : String) (j : Nat)
        (e : ExtensionRecord),
        (children.eraseIdx i)[other]? = some card →
        card.content.checkbox = some input →
        card.content.title = some t →
        findExtension t w.state.extensions = some j →
        w.state.extensions[j]? = some e →
        (checkboxChange parseHTML other
            (removeExtensionCard (some i) w)).state.extensions.length
          = w.state.extensions.length
        ∧ ∀ r ∈ (checkboxChange parseHTML other
              (removeExtensionCard (some i) w)).state.extensions,
            keeps (checkboxChange parseHTML other
              (removeExtensionCard (some i) w)).current r = true →
            ∃ grid, (checkboxChange parseHTML other
                  (removeExtensionCard (some i) w)).elements.grid = some grid
              ∧ createExtensionCard parseHTML r ∈ grid) := by
  have hget : children[i]? = some children[i] := List.getElem?_eq_getElem hi
  have hrem : removeExtensionCard (some i) w
      = { w with elements := { w.elements with grid := some (children.eraseIdx i) } } := by
    simp [removeExtensionCard, hgrid, hget]
  constructor
  · intro k
    have hsame : filterManager.apply parseHTML (some k) (removeExtensionCard (some i) w)
        = filterManager.apply parseHTML (some k) w := by
      rw [hrem]
      simp [filterManager.apply, hgrid, renderExtensions_some, filterManager.get]
    refine ⟨hsame, ?_, ?_⟩
    · rw [hsame, (apply_frame parseHTML (some k) w).1]
    · intro r hr hkeep
      rw [hsame]
      refine ⟨_, (apply_render parseHTML k w children hgrid).1, ?_⟩
      exact List.mem_map_of_mem _ (List.mem_filter.mpr ⟨hr, hkeep⟩)
  · intro other card input t j e hcard hbox htitle hfind hrec
    have hgrid' : (removeExtensionCard (some i) w).elements.grid
        = some (children.eraseIdx i) := by rw [hrem]
    have hstate : (removeExtensionCard (some i) w).state = w.state := by rw [hrem]
    have hfind' : findExtension t (removeExtensionCard (some i) w).state.extensions
        = some j := by rw [hstate]; exact hfind
    have hrec' : (removeExtensionCard (some i) w).state.extensions[j]? = some e := by
      rw [hstate]; exact hrec
    obtain ⟨h1, _, _, h4⟩ :=
      checkboxChange_found parseHTML (removeExtensionCard (some i) w) _ other card input t j e
        hgrid' hcard hbox htitle hfind' hrec'
    refine ⟨?_, ?_⟩
    · rw [h1, hstate]
      simp
    · intro r hr hkeep
      refine ⟨_, h4, ?_⟩
      rw [get_none, get_eq_filter]
      exact List.mem_map_of_mem _ (List.mem_filter.mpr ⟨hr, hkeep⟩)

/-- Witness for C10: on the seed list under the filter `"all"`, after the card
of `A` is removed, a click on the all filter brings the card of `A` back; so
does ticking the checkbox of the remaining card of `B`. -/
theorem removal_not_remembered_witness :
    (filterManager.apply sampleBrowser (some "all")
        (removeExtensionCard (some 0)
          (sampleWorld seedAB "all"
            (seedAB.map (createExtensionCard sampleBrowser))))).elements.grid
      = some [createExtensionCard sampleBrowser ⟨"A", "first", "a.svg", true⟩,
              createExtensionCard sampleBrowser ⟨"B", "second", "b.svg", false⟩]
    ∧ ∃ grid, (checkboxChange sampleBrowser 0
          (removeExtensionCard (some 0)
            (sampleWorld seedAB "all"
              (seedAB.map (createExtensionCard sampleBrowser))))).elements.grid
        = some grid
      ∧ createExtensionCard sampleBrowser ⟨"A", "first", "a.svg", true⟩ ∈ grid := by
  have h := removal_not_remembered sampleBrowser
    (sampleWorld seedAB "all" (seedAB.map (createExtensionCard sampleBrowser)))
    (seedAB.map (createExtensionCard sampleBrowser)) 0 rfl (by decide)
  refine ⟨?_, ?_⟩
  · rw [(h.1 "all").1]
    rfl
  · exact (h.2 0 (createExtensionCard sampleBrowser ⟨"B", "second", "b.svg", false⟩)
      ⟨false, false⟩ "B" 1 ⟨"B", "second", "b.svg", false⟩ rfl rfl rfl rfl rfl).2
      ⟨"A", "first", "a.svg", true⟩ (by decide) (by decide)

end BEM
